import Mathlib

/-!
Verification of the order-limits-manager service.

The embedding models, from `src/server.js`, `src/billing.js` and the
Prisma schema:

* the data model (`Shop`, `Rule`, `Settings` rows);
* the cart-validation logic of the `POST /api/validate-cart` handler,
  including the JavaScript truthiness tests (`null` and `0` are falsy,
  `""` is falsy, an array is truthy) that the handler relies on;
* the compliance-webhook handlers and their HMAC check, where the
  HMAC-SHA256 primitive itself is kept as a function parameter and the
  `JSON.stringify` / `express.json` (`JSON.parse`) pair is modelled on
  the JSON fragment the service exchanges;
* the `requireSubscription` billing gate.
-/

namespace OrderLimits

/-- A `Rule` row (Prisma model `Rule`): per-product / per-variant / cart
quantity bounds.  `minQuantity`, `maxQuantity`, `targetId` and `message`
are nullable columns, hence `Option`. -/
structure Rule where
  shopId : String
  ruleType : String
  targetId : Option String
  minQuantity : Option Int
  maxQuantity : Option Int
  enabled : Bool
  message : Option String
deriving DecidableEq

/-- A `Settings` row (Prisma model `Settings`), minus its identifiers:
nullable cart-wide bounds plus non-nullable boolean toggles. -/
structure Settings where
  globalMinCart : Option Int
  globalMaxCart : Option Int
  showCartWarning : Bool
  blockCheckout : Bool
  customMessageEnabled : Bool
deriving DecidableEq

/-- A cart line item as submitted to `POST /api/validate-cart`:
`product_id` / `variant_id` may be absent (`item.product_id?.toString()`
is `undefined` then), `quantity` is a JavaScript number (modelled as an
integer), `title` a string. -/
structure Item where
  product_id : Option String
  variant_id : Option String
  quantity : Int
  title : String
deriving DecidableEq

/-- One violation record pushed onto the `violations` array.  `vtype` is
the `type` field (`"min"`, `"max"`, `"cart_min"`, `"cart_max"`); `item`
is only set for per-item violations. -/
structure Violation where
  vtype : String
  item : Option String
  limit : Int
  current : Int
  message : String
deriving DecidableEq

/-- The JSON body answered by `POST /api/validate-cart` on success
(ignoring the constant `success: true` field). -/
structure VResult where
  valid : Bool
  violations : List Violation
  blockCheckout : Bool
deriving DecidableEq

/-- JavaScript strict equality `a === b` where `a` is a nullable string
column (`null` ↦ `none`) and `b` is `x?.toString()` (`undefined` ↦
`none`).  `null === undefined` is `false` in JavaScript, so the
`none, none` case is `false`. -/
def strictEqOpt (a b : Option String) : Bool :=
  match a, b with
  | some x, some y => x == y
  | _, _ => false

/-- JavaScript truthiness of a nullable number: `null` and `0` are
falsy, every other integer is truthy. -/
def truthyNum : Option Int → Bool
  | none => false
  | some n => n != 0

/-- JavaScript `m || d` for a nullable string `m` with default `d`:
`null` and the empty string are falsy. -/
def orDefault (m : Option String) (d : String) : String :=
  match m with
  | some s => if s == "" then d else s
  | none => d

/-- The rule filter of the per-item loop:
`(r.ruleType === 'product' && r.targetId === item.product_id?.toString()) ||
 (r.ruleType === 'variant' && r.targetId === item.variant_id?.toString())`. -/
def matchesItem (r : Rule) (it : Item) : Bool :=
  (r.ruleType == "product" && strictEqOpt r.targetId it.product_id) ||
  (r.ruleType == "variant" && strictEqOpt r.targetId it.variant_id)

/-- The record pushed for a per-item `min` violation. -/
def minViolation (r : Rule) (it : Item) (m : Int) : Violation :=
  ⟨"min", some it.title, m, it.quantity,
    orDefault r.message
      ("Minimum quantity for " ++ it.title ++ " is " ++ toString m)⟩

/-- The record pushed for a per-item `max` violation. -/
def maxViolation (r : Rule) (it : Item) (m : Int) : Violation :=
  ⟨"max", some it.title, m, it.quantity,
    orDefault r.message
      ("Maximum quantity for " ++ it.title ++ " is " ++ toString m)⟩

/-- Body of the inner `for (const rule of productRules)` loop: the `min`
check then the `max` check, each guarded by the JavaScript truthiness of
the bound (`rule.minQuantity && item.quantity < rule.minQuantity`). -/
def pairViolations (r : Rule) (it : Item) : List Violation :=
  (match r.minQuantity with
   | some m =>
     if m != 0 && decide (it.quantity < m) then [minViolation r it m]
     else []
   | none => []) ++
  (match r.maxQuantity with
   | some m =>
     if m != 0 && decide (it.quantity > m) then [maxViolation r it m]
     else []
   | none => [])

/-- The whole `for (const item of items)` loop over product/variant
rules. -/
def itemViolations (rules : List Rule) (items : List Item) : List Violation :=
  items.flatMap fun it =>
    (rules.filter fun r => matchesItem r it).flatMap fun r => pairViolations r it

/-- `items.reduce((sum, item) => sum + item.quantity, 0)`. -/
def totalQuantity (items : List Item) : Int :=
  items.foldl (fun sum it => sum + it.quantity) 0

/-- The record pushed for a cart-rule `cart_min` violation. -/
def cartMinViolation (r : Rule) (tot m : Int) : Violation :=
  ⟨"cart_min", none, m, tot,
    orDefault r.message
      ("Minimum cart quantity is " ++ toString m ++ " items")⟩

/-- The record pushed for a cart-rule `cart_max` violation. -/
def cartMaxViolation (r : Rule) (tot m : Int) : Violation :=
  ⟨"cart_max", none, m, tot,
    orDefault r.message
      ("Maximum cart quantity is " ++ toString m ++ " items")⟩

/-- Body of the `for (const rule of cartRules)` loop. -/
def cartPairViolations (r : Rule) (tot : Int) : List Violation :=
  (match r.minQuantity with
   | some m =>
     if m != 0 && decide (tot < m) then [cartMinViolation r tot m]
     else []
   | none => []) ++
  (match r.maxQuantity with
   | some m =>
     if m != 0 && decide (tot > m) then [cartMaxViolation r tot m]
     else []
   | none => [])

/-- The cart-wide-rules section:
`rules.filter(r => r.ruleType === 'cart')` then the min/max loop. -/
def cartViolations (rules : List Rule) (tot : Int) : List Violation :=
  (rules.filter fun r => r.ruleType == "cart").flatMap fun r =>
    cartPairViolations r tot

/-- The record pushed when the cart total is under `globalMinCart`
(always the generated message — the settings section has no custom
message). -/
def settingsMinViolation (tot g : Int) : Violation :=
  ⟨"cart_min", none, g, tot,
    "Minimum cart quantity is " ++ toString g ++ " items"⟩

/-- The record pushed when the cart total is over `globalMaxCart`. -/
def settingsMaxViolation (tot g : Int) : Violation :=
  ⟨"cart_max", none, g, tot,
    "Maximum cart quantity is " ++ toString g ++ " items"⟩

/-- The global-settings section:
`settings?.globalMinCart && totalQuantity < settings.globalMinCart`
(and the `max` twin).  `settings?.x` is `undefined` (falsy) when the
shop has no settings row. -/
def settingsViolations (settings : Option Settings) (tot : Int) : List Violation :=
  (match settings with
   | some s =>
     match s.globalMinCart with
     | some g =>
       if g != 0 && decide (tot < g) then [settingsMinViolation tot g]
       else []
     | none => []
   | none => []) ++
  (match settings with
   | some s =>
     match s.globalMaxCart with
     | some g =>
       if g != 0 && decide (tot > g) then [settingsMaxViolation tot g]
       else []
     | none => []
   | none => [])

/-- The successful path of the `POST /api/validate-cart` handler.
`rules` is the raw rule table for the shop; the handler's database query
carries `enabled: true`, mirrored by the `filter` on the first line.
The three sections are pushed onto one `violations` array in source
order; `valid` is `violations.length === 0` and `blockCheckout` is
`settings?.blockCheckout ?? true`. -/
def validateCart (rules : List Rule) (settings : Option Settings)
    (items : List Item) : VResult :=
  let enabledRules := rules.filter fun r => r.enabled
  let violations :=
    itemViolations enabledRules items ++
    cartViolations enabledRules (totalQuantity items) ++
    settingsViolations settings (totalQuantity items)
  { valid := violations.isEmpty
    violations := violations
    blockCheckout :=
      match settings with
      | some s => s.blockCheckout
      | none => true }

/-- Response of the handler: `badRequest` is the 400 branch. -/
inductive CartResponse where
  | badRequest
  | ok (r : VResult)
deriving DecidableEq

/-- JavaScript truthiness of the destructured `shop` field: absent
(`undefined`) and the empty string are falsy. -/
def truthyStr : Option String → Bool
  | none => false
  | some s => s != ""

/-- JavaScript truthiness of the destructured `items` field: absent is
falsy, any array (also `[]`) is truthy. -/
def truthyItems : Option (List Item) → Bool
  | none => false
  | some _ => true

/-- The `POST /api/validate-cart` handler:
`if (!shop || !items) return 400`, otherwise validate. -/
def validateCartHandler (rules : List Rule) (settings : Option Settings)
    (shopField : Option String) (itemsField : Option (List Item)) : CartResponse :=
  if truthyStr shopField && truthyItems itemsField then
    .ok (validateCart rules settings (itemsField.getD []))
  else
    .badRequest

/-- Replace a stored bound of `0` by the absent bound `null`; the
JavaScript truthiness guards make both behave alike. -/
def normBound : Option Int → Option Int
  | some m => if m = 0 then none else some m
  | none => none

/-- Normalise both bounds of a rule. -/
def normRule (r : Rule) : Rule :=
  { r with
    minQuantity := normBound r.minQuantity
    maxQuantity := normBound r.maxQuantity }

/-- Normalise both global bounds of a settings row. -/
def normSettings (s : Settings) : Settings :=
  { s with
    globalMinCart := normBound s.globalMinCart
    globalMaxCart := normBound s.globalMaxCart }

/-! ### JSON (the fragment exchanged with the webhook endpoints)

`express.json()` parses the raw request body with `JSON.parse`, and
`verifyWebhook` re-serialises the parsed value with `JSON.stringify`.
Both library functions are modelled here on the fragment the service
actually exchanges: `null`, booleans, integer numbers, escape-free
strings, arrays and objects. -/

/-- A JSON value.  Numbers are restricted to integers and object keys
keep their textual order, as `JSON.parse`/`JSON.stringify` do. -/
inductive Json where
  | null
  | bool (b : Bool)
  | num (n : Int)
  | str (s : String)
  | arr (elems : List Json)
  | obj (fields : List (String × Json))

/-- The escaping `JSON.stringify` applies inside string literals
(quotes, backslashes and the common control characters). -/
def escapeChar (c : Char) : String :=
  if c == '"' then "\\\""
  else if c == '\\' then "\\\\"
  else if c == '\n' then "\\n"
  else if c == '\t' then "\\t"
  else if c == '\r' then "\\r"
  else String.singleton c

/-- Escape a whole string literal body. -/
def escapeString (s : String) : String :=
  s.data.foldl (fun acc c => acc ++ escapeChar c) ""

mutual

/-- `JSON.stringify`: compact output, no whitespace, keys in order. -/
def jsonStringify : Json → String
  | .null => "null"
  | .bool true => "true"
  | .bool false => "false"
  | .num n => toString n
  | .str s => "\"" ++ escapeString s ++ "\""
  | .arr xs => "[" ++ stringifyElems xs ++ "]"
  | .obj fs => "\x7b" ++ stringifyFields fs ++ "\x7d"

/-- Comma-separated serialisation of array elements. -/
def stringifyElems : List Json → String
  | [] => ""
  | [x] => jsonStringify x
  | x :: y :: rest => jsonStringify x ++ "," ++ stringifyElems (y :: rest)

/-- Comma-separated serialisation of object members. -/
def stringifyFields : List (String × Json) → String
  | [] => ""
  | [(k, v)] => "\"" ++ escapeString k ++ "\":" ++ jsonStringify v
  | (k, v) :: f :: rest =>
      "\"" ++ escapeString k ++ "\":" ++ jsonStringify v ++ "," ++
      stringifyFields (f :: rest)

end

/-- The left-brace character, kept as a named constant. -/
def lbrace : Char := Char.ofNat 123

/-- The right-brace character, kept as a named constant. -/
def rbrace : Char := Char.ofNat 125

/-- JSON whitespace. -/
def isWs (c : Char) : Bool :=
  c == ' ' || c == '\t' || c == '\n' || c == '\r'

/-- Drop leading JSON whitespace. -/
def skipWs : List Char → List Char
  | [] => []
  | c :: rest => if isWs c then skipWs rest else c :: rest

/-- Split off a maximal run of decimal digits. -/
def takeDigits : List Char → List Char × List Char
  | [] => ([], [])
  | c :: rest =>
    if c.isDigit then
      let (ds, r) := takeDigits rest
      (c :: ds, r)
    else ([], c :: rest)

/-- Value of a run of decimal digits. -/
def digitsToNat (ds : List Char) : Nat :=
  ds.foldl (fun n c => 10 * n + (c.toNat - 48)) 0

/-- Read the body of a string literal up to its closing quote; the
parser models `JSON.parse` on escape-free strings only, so a backslash
makes it fail. -/
def takeStringChars : List Char → Option (List Char × List Char)
  | [] => none
  | c :: rest =>
    if c == '"' then some ([], rest)
    else if c == '\\' then none
    else
      match takeStringChars rest with
      | some (cs, r) => some (c :: cs, r)
      | none => none

mutual

/-- `JSON.parse` on the modelled fragment: one JSON value, fuelled. -/
def parseValue : Nat → List Char → Option (Json × List Char)
  | 0, _ => none
  | Nat.succ fuel, cs =>
    match skipWs cs with
    | [] => none
    | c :: rest =>
      if c == lbrace then
        match skipWs rest with
        | d :: rest2 =>
          if d == rbrace then some (.obj [], rest2)
          else parseFields fuel (d :: rest2) []
        | [] => none
      else if c == '[' then
        match skipWs rest with
        | d :: rest2 =>
          if d == ']' then some (.arr [], rest2)
          else parseElems fuel (d :: rest2) []
        | [] => none
      else if c == '"' then
        match takeStringChars rest with
        | some (cs2, r) => some (.str (String.mk cs2), r)
        | none => none
      else if c == 't' then
        if rest.take 3 = ['r', 'u', 'e'] then some (.bool true, rest.drop 3)
        else none
      else if c == 'f' then
        if rest.take 4 = ['a', 'l', 's', 'e'] then some (.bool false, rest.drop 4)
        else none
      else if c == 'n' then
        if rest.take 3 = ['u', 'l', 'l'] then some (.null, rest.drop 3)
        else none
      else if c == '-' then
        match takeDigits rest with
        | ([], _) => none
        | (ds, r) => some (.num (-(digitsToNat ds : Int)), r)
      else if c.isDigit then
        let (ds, r) := takeDigits (c :: rest)
        some (.num (digitsToNat ds), r)
      else none

/-- Elements of a non-empty array, comma-separated, up to `]`. -/
def parseElems : Nat → List Char → List Json → Option (Json × List Char)
  | 0, _, _ => none
  | Nat.succ fuel, cs, acc =>
    match parseValue fuel cs with
    | none => none
    | some (v, r) =>
      match skipWs r with
      | c :: r2 =>
        if c == ',' then parseElems fuel r2 (v :: acc)
        else if c == ']' then some (.arr (v :: acc).reverse, r2)
        else none
      | [] => none

/-- Members of a non-empty object, comma-separated, up to the closing
brace. -/
def parseFields : Nat → List Char → List (String × Json) →
    Option (Json × List Char)
  | 0, _, _ => none
  | Nat.succ fuel, cs, acc =>
    match skipWs cs with
    | c :: rest =>
      if c == '"' then
        match takeStringChars rest with
        | some (kcs, r) =>
          (match skipWs r with
           | d :: r2 =>
             if d == ':' then
               match parseValue fuel r2 with
               | some (v, r3) =>
                 (match skipWs r3 with
                  | e :: r4 =>
                    if e == ',' then
                      parseFields fuel r4 ((String.mk kcs, v) :: acc)
                    else if e == rbrace then
                      some (.obj ((String.mk kcs, v) :: acc).reverse, r4)
                    else none
                  | [] => none)
               | none => none
             else none
           | [] => none)
        | none => none
      else none
    | [] => none

end

/-- `JSON.parse` over a whole document: parse one value and require
only trailing whitespace after it.  The fuel `s.length + 1` dominates
the recursion depth, which consumes at least one character per level. -/
def jsonParse (s : String) : Option Json :=
  match parseValue (s.length + 1) s.data with
  | some (j, rest) => if (skipWs rest).isEmpty then some j else none
  | none => none

/-! ### Webhook handlers (`src/server.js`, compliance section) -/

/-- A webhook request as the handlers see it after `express.json()`:
the `X-Shopify-Hmac-Sha256` header (absent ↦ `none`), the raw body
bytes, and the parsed body (`req.body`). -/
structure WebhookReq where
  hmacHeader : Option String
  rawBody : String
  body : Json

/-- The string the handlers feed to the HMAC:
`const body = JSON.stringify(req.body)` — the re-serialisation of the
parsed body, not the raw request body. -/
def webhookHashInput (req : WebhookReq) : String :=
  jsonStringify req.body

/-- `verifyWebhook` from `src/server.js`.  The HMAC-SHA256 primitive
(`crypto.createHmac('sha256', secret).update(body).digest('base64')`)
is kept as the parameter `hmacF : secret → message → digest`.  A
missing header is `undefined`, and `undefined === hash` is `false`. -/
def verifyWebhook (hmacF : String → String → String) (secret : String)
    (req : WebhookReq) : Bool :=
  match req.hmacHeader with
  | some h => h == hmacF secret (webhookHashInput req)
  | none => false

/-- A `Shop` row (Prisma model `Shop`), with the columns the claims
touch. -/
structure ShopRec where
  id : String
  name : String
deriving DecidableEq

/-- A `Settings` row together with its owning shop. -/
structure SettingsRec where
  shopId : String
  settings : Settings
deriving DecidableEq

/-- The database state the webhook handlers act on: the three tables. -/
structure DBState where
  rules : List Rule
  settingsRecs : List SettingsRec
  shops : List ShopRec
deriving DecidableEq

/-- Field lookup on a parsed JSON object (`req.body.shop_domain`). -/
def getField (j : Json) (k : String) : Option Json :=
  match j with
  | .obj fs => (fs.find? fun kv => kv.1 == k).map fun kv => kv.2
  | _ => none

/-- `req.body.shop_domain` as a string, `none` when absent or not a
string. -/
def getShopDomain (j : Json) : Option String :=
  match getField j "shop_domain" with
  | some (.str s) => some s
  | _ => none

/-- Prisma `where: { shopId }` filter semantics: a present value matches
by equality; `undefined` (`none`) means the condition is dropped, so
every row matches. -/
def whereShopId (sid : Option String) (rowShop : String) : Bool :=
  match sid with
  | some s => rowShop == s
  | none => true

/-- `POST /webhooks/customers/data_request`: verify, then answer 200
with no state change; 401 with no state change on failure. -/
def custDataRequestHandler (hmacF : String → String → String)
    (secret : String) (req : WebhookReq) (db : DBState) : Nat × DBState :=
  if verifyWebhook hmacF secret req then (200, db) else (401, db)

/-- `POST /webhooks/customers/redact`: same shape as the data-request
handler — no customer data is stored, so nothing is deleted. -/
def custRedactHandler (hmacF : String → String → String)
    (secret : String) (req : WebhookReq) (db : DBState) : Nat × DBState :=
  if verifyWebhook hmacF secret req then (200, db) else (401, db)

/-- `POST /webhooks/shop/redact`: verify, then
`rule.deleteMany({shopId})`, `settings.deleteMany({shopId})`,
`shop.deleteMany({id: shopId})` in sequence, answering 200 (the
success path of the promise chain); 401 with no state change on
signature failure. -/
def shopRedactHandler (hmacF : String → String → String)
    (secret : String) (req : WebhookReq) (db : DBState) : Nat × DBState :=
  if verifyWebhook hmacF secret req then
    let sid := getShopDomain req.body
    (200,
      { rules := db.rules.filter fun r => !whereShopId sid r.shopId
        settingsRecs := db.settingsRecs.filter fun s => !whereShopId sid s.shopId
        shops := db.shops.filter fun s => !whereShopId sid s.id })
  else (401, db)

/-! ### Billing gate (`src/billing.js`) -/

/-- Outcome of the `requireSubscription` middleware: `next` passes the
request through, `paymentRequired` is the 402 response. -/
inductive GateOutcome where
  | next
  | paymentRequired
deriving DecidableEq

/-- Milliseconds in a day; `trialEndDate.setDate(getDate() + trialDays)`
is modelled as adding `trialDays` whole days to the creation instant. -/
def msPerDay : Int := 86400000

/-- `requireSubscription` from `src/billing.js`: when no active
subscription exists, compute the trial end from the shop's `createdAt`
plus the configured trial days and reject with 402 strictly after it;
otherwise fall through to `next()`.  Instants are in milliseconds. -/
def requireSubscription (hasActiveSubscription : Bool)
    (shopCreatedAt trialDays now : Int) : GateOutcome :=
  if !hasActiveSubscription then
    let trialEndDate := shopCreatedAt + trialDays * msPerDay
    if now > trialEndDate then .paymentRequired else .next
  else .next

end OrderLimits

namespace OrderLimits

/-! ### Shared helper lemmas -/

/-- The violations array of the handler is the concatenation of its
three sections, in source order. -/
theorem violations_eq (rules : List Rule) (settings : Option Settings)
    (items : List Item) :
    (validateCart rules settings items).violations =
      itemViolations (rules.filter fun r => r.enabled) items ++
      cartViolations (rules.filter fun r => r.enabled) (totalQuantity items) ++
      settingsViolations settings (totalQuantity items) := rfl

/-- `valid` is emptiness of the violations array. -/
theorem valid_eq (rules : List Rule) (settings : Option Settings)
    (items : List Item) :
    (validateCart rules settings items).valid =
      (validateCart rules settings items).violations.isEmpty := rfl

/-- Anything emitted by the per-item loop for a matching enabled rule is
in the final violations array. -/
theorem mem_validateCart_of_pair (rules : List Rule)
    (settings : Option Settings) (items : List Item) (r : Rule) (it : Item)
    (v : Violation) (hr : r ∈ rules) (hen : r.enabled = true)
    (hm : matchesItem r it = true) (hit : it ∈ items)
    (hv : v ∈ pairViolations r it) :
    v ∈ (validateCart rules settings items).violations := by
  have hmem : v ∈ itemViolations (rules.filter fun r => r.enabled) items := by
    unfold itemViolations
    refine List.mem_flatMap.mpr ⟨it, hit, ?_⟩
    refine List.mem_flatMap.mpr ⟨r, ?_, hv⟩
    exact List.mem_filter.mpr ⟨List.mem_filter.mpr ⟨hr, hen⟩, hm⟩
  rw [violations_eq]
  exact List.mem_append.mpr (Or.inl (List.mem_append.mpr (Or.inl hmem)))

/-- When the `min` bound of a rule is set, nonzero and crossed, the
per-pair emission contains exactly one `min` record, carrying the
rule's bound as `limit` and the item's quantity as `current`. -/
theorem pairViolations_min_eq (r : Rule) (it : Item) (m : Int)
    (h1 : r.minQuantity = some m) (h2 : m ≠ 0) (h3 : it.quantity < m) :
    (pairViolations r it).filter (fun v => v.vtype == "min") =
      [minViolation r it m] := by
  unfold pairViolations
  rw [h1]
  cases hM : r.maxQuantity with
  | none => simp [h2, h3, minViolation]
  | some M =>
    by_cases hc : (M != 0 && decide (it.quantity > M)) = true
    · simp [h2, h3, hc, minViolation, maxViolation]
    · simp [h2, h3, hc, minViolation]

/-- Twin of `pairViolations_min_eq` for the `max` bound. -/
theorem pairViolations_max_eq (r : Rule) (it : Item) (m : Int)
    (h1 : r.maxQuantity = some m) (h2 : m ≠ 0) (h3 : it.quantity > m) :
    (pairViolations r it).filter (fun v => v.vtype == "max") =
      [maxViolation r it m] := by
  unfold pairViolations
  rw [h1]
  cases hm : r.minQuantity with
  | none => simp [h2, h3, maxViolation]
  | some m0 =>
    by_cases hc : (m0 != 0 && decide (it.quantity < m0)) = true
    · simp [h2, h3, hc, minViolation, maxViolation]
    · simp [h2, h3, hc, maxViolation]

/-- When `globalMinCart` is set, nonzero and above the cart total, the
settings section contains exactly one `cart_min` record. -/
theorem settingsViolations_min_eq (s : Settings) (g tot : Int)
    (h1 : s.globalMinCart = some g) (h2 : g ≠ 0) (h3 : tot < g) :
    (settingsViolations (some s) tot).filter (fun v => v.vtype == "cart_min") =
      [settingsMinViolation tot g] ∧
    settingsMinViolation tot g ∈ settingsViolations (some s) tot := by
  simp only [settingsViolations]
  rw [h1]
  cases hG : s.globalMaxCart with
  | none => simp [h2, h3, settingsMinViolation]
  | some G =>
    by_cases hc : (G != 0 && decide (tot > G)) = true
    · simp [h2, h3, hc, settingsMinViolation, settingsMaxViolation]
    · simp [h2, h3, hc, settingsMinViolation]

/-- Twin of `settingsViolations_min_eq` for `globalMaxCart`. -/
theorem settingsViolations_max_eq (s : Settings) (g tot : Int)
    (h1 : s.globalMaxCart = some g) (h2 : g ≠ 0) (h3 : tot > g) :
    (settingsViolations (some s) tot).filter (fun v => v.vtype == "cart_max") =
      [settingsMaxViolation tot g] ∧
    settingsMaxViolation tot g ∈ settingsViolations (some s) tot := by
  simp only [settingsViolations]
  rw [h1]
  cases hg : s.globalMinCart with
  | none => simp [h2, h3, settingsMaxViolation]
  | some g0 =>
    by_cases hc : (g0 != 0 && decide (tot < g0)) = true
    · simp [h2, h3, hc, settingsMinViolation, settingsMaxViolation]
    · simp [h2, h3, hc, settingsMaxViolation]

/-! ### Claim theorems -/

/-- C1: for a cart item and an enabled `product`/`variant` rule whose
`targetId` matches the item's product / variant id, a set (and, per the
code's truthiness test, nonzero — claim C9 covers the zero case)
`minQuantity` above the item's quantity makes the item-rule pair emit
exactly one `min` violation, with `current` the submitted quantity and
`limit` the rule's bound, and that violation reaches the handler's
violations array; symmetrically for `maxQuantity` and `max`. -/
theorem item_rule_min_max_exactly_one (rules : List Rule)
    (settings : Option Settings) (items : List Item) (r : Rule) (it : Item)
    (m M : Int) (hr : r ∈ rules) (hen : r.enabled = true)
    (hmatch : matchesItem r it = true) (hit : it ∈ items) :
    (r.minQuantity = some m → m ≠ 0 → it.quantity < m →
      (pairViolations r it).filter (fun v => v.vtype == "min") =
        [minViolation r it m] ∧
      minViolation r it m ∈ (validateCart rules settings items).violations) ∧
    (r.maxQuantity = some M → M ≠ 0 → it.quantity > M →
      (pairViolations r it).filter (fun v => v.vtype == "max") =
        [maxViolation r it M] ∧
      maxViolation r it M ∈ (validateCart rules settings items).violations) := by
  constructor
  · intro h1 h2 h3
    have heq := pairViolations_min_eq r it m h1 h2 h3
    refine ⟨heq, ?_⟩
    have hv : minViolation r it m ∈ pairViolations r it := by
      have : minViolation r it m ∈
          (pairViolations r it).filter (fun v => v.vtype == "min") := by
        rw [heq]; exact List.mem_singleton.mpr rfl
      exact List.mem_of_mem_filter this
    exact mem_validateCart_of_pair rules settings items r it _ hr hen hmatch hit hv
  · intro h1 h2 h3
    have heq := pairViolations_max_eq r it M h1 h2 h3
    refine ⟨heq, ?_⟩
    have hv : maxViolation r it M ∈ pairViolations r it := by
      have : maxViolation r it M ∈
          (pairViolations r it).filter (fun v => v.vtype == "max") := by
        rw [heq]; exact List.mem_singleton.mpr rfl
      exact List.mem_of_mem_filter this
    exact mem_validateCart_of_pair rules settings items r it _ hr hen hmatch hit hv

/-- Witness for C1: a product rule with `minQuantity = 5`,
`maxQuantity = 3` and an item of quantity 4 fires both bounds. -/
theorem item_rule_min_max_exactly_one_witness :
    ((pairViolations ⟨"s", "product", some "p", some 5, some 3, true, none⟩
        ⟨some "p", none, 4, "Wax"⟩).filter (fun v => v.vtype == "min") =
      [minViolation ⟨"s", "product", some "p", some 5, some 3, true, none⟩
        ⟨some "p", none, 4, "Wax"⟩ 5] ∧
     minViolation ⟨"s", "product", some "p", some 5, some 3, true, none⟩
        ⟨some "p", none, 4, "Wax"⟩ 5 ∈
      (validateCart [⟨"s", "product", some "p", some 5, some 3, true, none⟩]
        none [⟨some "p", none, 4, "Wax"⟩]).violations) ∧
    ((pairViolations ⟨"s", "product", some "p", some 5, some 3, true, none⟩
        ⟨some "p", none, 4, "Wax"⟩).filter (fun v => v.vtype == "max") =
      [maxViolation ⟨"s", "product", some "p", some 5, some 3, true, none⟩
        ⟨some "p", none, 4, "Wax"⟩ 3] ∧
     maxViolation ⟨"s", "product", some "p", some 5, some 3, true, none⟩
        ⟨some "p", none, 4, "Wax"⟩ 3 ∈
      (validateCart [⟨"s", "product", some "p", some 5, some 3, true, none⟩]
        none [⟨some "p", none, 4, "Wax"⟩]).violations) := by
  have h := item_rule_min_max_exactly_one
    [⟨"s", "product", some "p", some 5, some 3, true, none⟩] none
    [⟨some "p", none, 4, "Wax"⟩]
    ⟨"s", "product", some "p", some 5, some 3, true, none⟩
    ⟨some "p", none, 4, "Wax"⟩ 5 3
    (by decide) (by decide) (by decide) (by decide)
  exact ⟨h.1 rfl (by decide) (by decide), h.2 rfl (by decide) (by decide)⟩

/-- C2: a cart total under a set, nonzero `globalMinCart` (over
`globalMaxCart`) puts a `cart_min` (`cart_max`) violation in the
response, and when the per-item and cart-rule sections are empty — in
particular when every item satisfies the bounds of its matching rules —
that violation is the only one of its type. -/
theorem settings_cart_bounds_violation (rules : List Rule)
    (items : List Item) (s : Settings) (g G : Int) :
    (s.globalMinCart = some g → g ≠ 0 → totalQuantity items < g →
      settingsMinViolation (totalQuantity items) g ∈
        (validateCart rules (some s) items).violations ∧
      (itemViolations (rules.filter fun r => r.enabled) items = [] →
       cartViolations (rules.filter fun r => r.enabled) (totalQuantity items) = [] →
       (validateCart rules (some s) items).violations.filter
           (fun v => v.vtype == "cart_min") =
         [settingsMinViolation (totalQuantity items) g])) ∧
    (s.globalMaxCart = some G → G ≠ 0 → totalQuantity items > G →
      settingsMaxViolation (totalQuantity items) G ∈
        (validateCart rules (some s) items).violations ∧
      (itemViolations (rules.filter fun r => r.enabled) items = [] →
       cartViolations (rules.filter fun r => r.enabled) (totalQuantity items) = [] →
       (validateCart rules (some s) items).violations.filter
           (fun v => v.vtype == "cart_max") =
         [settingsMaxViolation (totalQuantity items) G])) := by
  constructor
  · intro h1 h2 h3
    obtain ⟨hfilt, hmem⟩ := settingsViolations_min_eq s g _ h1 h2 h3
    constructor
    · rw [violations_eq]
      exact List.mem_append.mpr (Or.inr hmem)
    · intro hi hc
      rw [violations_eq, hi, hc]
      simpa using hfilt
  · intro h1 h2 h3
    obtain ⟨hfilt, hmem⟩ := settingsViolations_max_eq s G _ h1 h2 h3
    constructor
    · rw [violations_eq]
      exact List.mem_append.mpr (Or.inr hmem)
    · intro hi hc
      rw [violations_eq, hi, hc]
      simpa using hfilt

/-- Witness for C2: a one-item cart of quantity 1 against
`globalMinCart = 5`, and a one-item cart of quantity 3 against
`globalMaxCart = 2`. -/
theorem settings_cart_bounds_violation_witness :
    (validateCart [] (some ⟨some 5, none, true, true, false⟩)
        [⟨none, none, 1, "W"⟩]).violations.filter
        (fun v => v.vtype == "cart_min") =
      [settingsMinViolation 1 5] ∧
    (validateCart [] (some ⟨none, some 2, true, true, false⟩)
        [⟨none, none, 3, "W"⟩]).violations.filter
        (fun v => v.vtype == "cart_max") =
      [settingsMaxViolation 3 2] := by
  have h1 := (settings_cart_bounds_violation []
    [⟨none, none, 1, "W"⟩] ⟨some 5, none, true, true, false⟩ 5 0).1
    rfl (by decide) (by decide)
  have h2 := (settings_cart_bounds_violation []
    [⟨none, none, 3, "W"⟩] ⟨none, some 2, true, true, false⟩ 0 2).2
    rfl (by decide) (by decide)
  exact ⟨h1.2 rfl rfl, h2.2 rfl rfl⟩

/-- C3: cart validation never short-circuits — the violations array is
the concatenation of the complete per-item, cart-rule and settings
sections — `valid` is true exactly when that array is empty, and a cart
touched by no rule and no settings bound comes back `valid` with no
violations. -/
theorem validate_cart_collects_all (rules : List Rule)
    (settings : Option Settings) (items : List Item) :
    ((validateCart rules settings items).valid = true ↔
      (validateCart rules settings items).violations = []) ∧
    ((validateCart rules settings items).violations =
      itemViolations (rules.filter fun r => r.enabled) items ++
      cartViolations (rules.filter fun r => r.enabled) (totalQuantity items) ++
      settingsViolations settings (totalQuantity items)) ∧
    ((∀ r ∈ rules, r.enabled = true →
        r.ruleType ≠ "cart" ∧ ∀ it ∈ items, matchesItem r it = false) →
      (∀ s, settings = some s →
        truthyNum s.globalMinCart = false ∧ truthyNum s.globalMaxCart = false) →
      (validateCart rules settings items).valid = true ∧
      (validateCart rules settings items).violations = []) := by
  refine ⟨?_, violations_eq rules settings items, ?_⟩
  · rw [valid_eq]
    exact List.isEmpty_iff
  · intro hrules hset
    have hitem : itemViolations (rules.filter fun r => r.enabled) items = [] := by
      unfold itemViolations
      refine List.flatMap_eq_nil_iff.mpr fun it hit => ?_
      have hfil : (rules.filter fun r => r.enabled).filter
          (fun r => matchesItem r it) = [] := by
        refine List.filter_eq_nil_iff.mpr fun r hr => ?_
        obtain ⟨hr1, hr2⟩ := List.mem_filter.mp hr
        simp [(hrules r hr1 hr2).2 it hit]
      rw [hfil]
      rfl
    have hcart : cartViolations (rules.filter fun r => r.enabled)
        (totalQuantity items) = [] := by
      unfold cartViolations
      have hfil : (rules.filter fun r => r.enabled).filter
          (fun r => r.ruleType == "cart") = [] := by
        refine List.filter_eq_nil_iff.mpr fun r hr => ?_
        obtain ⟨hr1, hr2⟩ := List.mem_filter.mp hr
        simp [(hrules r hr1 hr2).1]
      rw [hfil]
      rfl
    have hsettings : settingsViolations settings (totalQuantity items) = [] := by
      cases hs : settings with
      | none => rfl
      | some s =>
        obtain ⟨hgmin, hgmax⟩ := hset s hs
        simp only [settingsViolations]
        cases h1 : s.globalMinCart with
        | none =>
          cases h2 : s.globalMaxCart with
          | none => rfl
          | some G =>
            have : (G != 0) = false := by
              simpa [truthyNum, h2] using hgmax
            simp [this]
        | some g =>
          have hg : (g != 0) = false := by
            simpa [truthyNum, h1] using hgmin
          cases h2 : s.globalMaxCart with
          | none => simp [hg]
          | some G =>
            have hG : (G != 0) = false := by
              simpa [truthyNum, h2] using hgmax
            simp [hg, hG]
    have hviol : (validateCart rules settings items).violations = [] := by
      rw [violations_eq, hitem, hcart, hsettings]
      rfl
    exact ⟨by rw [valid_eq, hviol]; rfl, hviol⟩

/-- Witness for C3: the three conjuncts at a concrete cart — a rule that
matches nothing in the cart, settings with both bounds null. -/
theorem validate_cart_collects_all_witness :
    ((validateCart [⟨"s", "product", some "other", some 2, none, true, none⟩]
        (some ⟨none, none, true, false, false⟩)
        [⟨some "p", none, 1, "W"⟩]).valid = true ↔
      (validateCart [⟨"s", "product", some "other", some 2, none, true, none⟩]
        (some ⟨none, none, true, false, false⟩)
        [⟨some "p", none, 1, "W"⟩]).violations = []) ∧
    (validateCart [⟨"s", "product", some "other", some 2, none, true, none⟩]
        (some ⟨none, none, true, false, false⟩)
        [⟨some "p", none, 1, "W"⟩]).valid = true ∧
    (validateCart [⟨"s", "product", some "other", some 2, none, true, none⟩]
        (some ⟨none, none, true, false, false⟩)
        [⟨some "p", none, 1, "W"⟩]).violations = [] := by
  have h := validate_cart_collects_all
    [⟨"s", "product", some "other", some 2, none, true, none⟩]
    (some ⟨none, none, true, false, false⟩)
    [⟨some "p", none, 1, "W"⟩]
  refine ⟨h.1, h.2.2 ?_ ?_⟩
  · intro r hr hen
    constructor
    · intro hcart
      rw [List.mem_singleton.mp hr] at hcart
      exact absurd hcart (by decide)
    · intro it hit
      rw [List.mem_singleton.mp hr, List.mem_singleton.mp hit]
      decide
  · intro s hs
    rw [(Option.some_inj.mp hs.symm)]
    decide

/-- C7: `blockCheckout` in the response is the settings flag when a
settings row exists, `true` when the shop has none
(`settings?.blockCheckout ?? true`). -/
theorem block_checkout_from_settings (rules : List Rule)
    (settings : Option Settings) (items : List Item) :
    (∀ s, settings = some s →
      (validateCart rules settings items).blockCheckout = s.blockCheckout) ∧
    (settings = none →
      (validateCart rules settings items).blockCheckout = true) := by
  constructor
  · intro s hs
    subst hs
    rfl
  · intro hs
    subst hs
    rfl

/-- Witness for C7: a settings row with `blockCheckout = false`, and an
absent settings row. -/
theorem block_checkout_from_settings_witness :
    (validateCart [] (some ⟨none, none, true, false, false⟩) []).blockCheckout =
      false ∧
    (validateCart [] none []).blockCheckout = true := by
  constructor
  · exact (block_checkout_from_settings [] (some ⟨none, none, true, false, false⟩)
      []).1 ⟨none, none, true, false, false⟩ rfl
  · exact (block_checkout_from_settings [] none []).2 rfl

/-- C8: a request body missing `shop` or missing `items` is answered
with the 400 branch (`badRequest` carries no validation output). -/
theorem missing_fields_bad_request (rules : List Rule)
    (settings : Option Settings) (shopField : Option String)
    (itemsField : Option (List Item)) :
    (shopField = none →
      validateCartHandler rules settings shopField itemsField = .badRequest) ∧
    (itemsField = none →
      validateCartHandler rules settings shopField itemsField = .badRequest) := by
  constructor
  · intro h
    subst h
    rfl
  · intro h
    subst h
    simp [validateCartHandler, truthyItems]

/-- Witness for C8: both missing-field shapes at concrete bodies. -/
theorem missing_fields_bad_request_witness :
    validateCartHandler [] none none (some []) = .badRequest ∧
    validateCartHandler [] none (some "shop") none = .badRequest := by
  constructor
  · exact (missing_fields_bad_request [] none none (some [])).1 rfl
  · exact (missing_fields_bad_request [] none (some "shop") none).2 rfl

/-- Per-pair emission is unchanged by normalising zero bounds away. -/
theorem pairViolations_norm (r : Rule) (it : Item) :
    pairViolations (normRule r) it = pairViolations r it := by
  have hmin : (normRule r).minQuantity = normBound r.minQuantity := rfl
  have hmax : (normRule r).maxQuantity = normBound r.maxQuantity := rfl
  unfold pairViolations
  rw [hmin, hmax]
  congr 1
  · cases h : r.minQuantity with
    | none => rfl
    | some m =>
      by_cases hm : m = 0
      · subst hm
        simp [normBound]
      · simp only [normBound, if_neg hm]
        rfl
  · cases h : r.maxQuantity with
    | none => rfl
    | some m =>
      by_cases hm : m = 0
      · subst hm
        simp [normBound]
      · simp only [normBound, if_neg hm]
        rfl

/-- Cart-rule emission is unchanged by normalising zero bounds away. -/
theorem cartPairViolations_norm (r : Rule) (tot : Int) :
    cartPairViolations (normRule r) tot = cartPairViolations r tot := by
  have hmin : (normRule r).minQuantity = normBound r.minQuantity := rfl
  have hmax : (normRule r).maxQuantity = normBound r.maxQuantity := rfl
  unfold cartPairViolations
  rw [hmin, hmax]
  congr 1
  · cases h : r.minQuantity with
    | none => rfl
    | some m =>
      by_cases hm : m = 0
      · subst hm
        simp [normBound]
      · simp only [normBound, if_neg hm]
        rfl
  · cases h : r.maxQuantity with
    | none => rfl
    | some m =>
      by_cases hm : m = 0
      · subst hm
        simp [normBound]
      · simp only [normBound, if_neg hm]
        rfl

/-- Filtering commutes with rule normalisation for predicates that
ignore the bounds. -/
theorem filter_map_norm (p : Rule → Bool) (h : ∀ r, p (normRule r) = p r)
    (rules : List Rule) :
    (rules.map normRule).filter p = (rules.filter p).map normRule := by
  induction rules with
  | nil => rfl
  | cons r rs ih =>
    simp only [List.map_cons, List.filter_cons, h r]
    cases p r <;> simp [ih]

/-- C9: a stored bound of `0` is no bound at all — validation of any
cart is unchanged when every `minQuantity = 0`, `maxQuantity = 0`,
`globalMinCart = 0` or `globalMaxCart = 0` is replaced by `null`. -/
theorem zero_bound_is_no_bound (rules : List Rule)
    (settings : Option Settings) (items : List Item) :
    validateCart (rules.map normRule) (settings.map normSettings) items =
      validateCart rules settings items := by
  have hitem : itemViolations ((rules.map normRule).filter fun r => r.enabled)
      items = itemViolations (rules.filter fun r => r.enabled) items := by
    rw [filter_map_norm (fun r => r.enabled) (fun r => rfl)]
    unfold itemViolations
    refine List.flatMap_congr fun it _ => ?_
    rw [filter_map_norm (fun r => matchesItem r it) (fun r => rfl),
      List.flatMap_map]
    exact List.flatMap_congr fun r _ => pairViolations_norm r it
  have hcart : cartViolations ((rules.map normRule).filter fun r => r.enabled)
      (totalQuantity items) =
      cartViolations (rules.filter fun r => r.enabled) (totalQuantity items) := by
    rw [filter_map_norm (fun r => r.enabled) (fun r => rfl)]
    unfold cartViolations
    rw [filter_map_norm (fun r => r.ruleType == "cart") (fun r => rfl),
      List.flatMap_map]
    exact List.flatMap_congr fun r _ => cartPairViolations_norm r (totalQuantity items)
  have hsettings : settingsViolations (settings.map normSettings)
      (totalQuantity items) = settingsViolations settings (totalQuantity items) := by
    cases settings with
    | none => rfl
    | some s =>
      have hmap : (some s).map normSettings = some (normSettings s) := rfl
      have hgmin : (normSettings s).globalMinCart = normBound s.globalMinCart := rfl
      have hgmax : (normSettings s).globalMaxCart = normBound s.globalMaxCart := rfl
      rw [hmap]
      simp only [settingsViolations]
      rw [hgmin, hgmax]
      congr 1
      · cases h : s.globalMinCart with
        | none => rfl
        | some g =>
          by_cases hg : g = 0
          · subst hg
            simp [normBound]
          · simp only [normBound, if_neg hg]
      · cases h : s.globalMaxCart with
        | none => rfl
        | some g =>
          by_cases hg : g = 0
          · subst hg
            simp [normBound]
          · simp only [normBound, if_neg hg]
  have hbc : (validateCart (rules.map normRule) (settings.map normSettings)
      items).blockCheckout = (validateCart rules settings items).blockCheckout := by
    cases settings with
    | none => rfl
    | some s => rfl
  have hviol : (validateCart (rules.map normRule) (settings.map normSettings)
      items).violations = (validateCart rules settings items).violations := by
    rw [violations_eq, violations_eq, hitem, hcart, hsettings]
  have hvalid : (validateCart (rules.map normRule) (settings.map normSettings)
      items).valid = (validateCart rules settings items).valid := by
    rw [valid_eq, valid_eq, hviol]
  cases hv : validateCart (rules.map normRule) (settings.map normSettings) items
  cases hw : validateCart rules settings items
  rw [hv, hw] at hviol hvalid hbc
  simp_all

/-- The cart-rule section is empty when no rule has type `cart`. -/
theorem cartViolations_nil_of (rules : List Rule) (tot : Int)
    (h : ∀ r ∈ rules, r.ruleType ≠ "cart") : cartViolations rules tot = [] := by
  unfold cartViolations
  have hfil : rules.filter (fun r => r.ruleType == "cart") = [] := by
    refine List.filter_eq_nil_iff.mpr fun r hr => ?_
    simp [h r hr]
  rw [hfil]
  rfl

/-- The settings section is empty when both global bounds are falsy. -/
theorem settingsViolations_nil_of (settings : Option Settings) (tot : Int)
    (h : ∀ s, settings = some s →
      truthyNum s.globalMinCart = false ∧ truthyNum s.globalMaxCart = false) :
    settingsViolations settings tot = [] := by
  cases hs : settings with
  | none => rfl
  | some s =>
    obtain ⟨hgmin, hgmax⟩ := h s hs
    simp only [settingsViolations]
    cases h1 : s.globalMinCart with
    | none =>
      cases h2 : s.globalMaxCart with
      | none => rfl
      | some G =>
        have : (G != 0) = false := by simpa [truthyNum, h2] using hgmax
        simp [this]
    | some g =>
      have hg : (g != 0) = false := by simpa [truthyNum, h1] using hgmin
      cases h2 : s.globalMaxCart with
      | none => simp [hg]
      | some G =>
        have hG : (G != 0) = false := by simpa [truthyNum, h2] using hgmax
        simp [hg, hG]

/-- A `cart_min` record fired by a cart rule sits in its pair
emission. -/
theorem cartMin_mem_cartPair (r : Rule) (tot g : Int)
    (h1 : r.minQuantity = some g) (h2 : g ≠ 0) (h3 : tot < g) :
    cartMinViolation r tot g ∈ cartPairViolations r tot := by
  unfold cartPairViolations
  rw [h1]
  refine List.mem_append.mpr (Or.inl ?_)
  simp [h2, h3]

/-- Anything emitted by an enabled cart rule is in the final violations
array. -/
theorem mem_validateCart_of_cart (rules : List Rule)
    (settings : Option Settings) (items : List Item) (r : Rule) (v : Violation)
    (hr : r ∈ rules) (hen : r.enabled = true) (hc : r.ruleType = "cart")
    (hv : v ∈ cartPairViolations r (totalQuantity items)) :
    v ∈ (validateCart rules settings items).violations := by
  have hmem : v ∈ cartViolations (rules.filter fun r => r.enabled)
      (totalQuantity items) := by
    unfold cartViolations
    refine List.mem_flatMap.mpr ⟨r, ?_, hv⟩
    exact List.mem_filter.mpr
      ⟨List.mem_filter.mpr ⟨hr, hen⟩, by simp [hc]⟩
  rw [violations_eq]
  exact List.mem_append.mpr (Or.inl (List.mem_append.mpr (Or.inr hmem)))

/-- Anything emitted by the settings section is in the final violations
array. -/
theorem mem_validateCart_of_settings (rules : List Rule)
    (settings : Option Settings) (items : List Item) (v : Violation)
    (hv : v ∈ settingsViolations settings (totalQuantity items)) :
    v ∈ (validateCart rules settings items).violations := by
  rw [violations_eq]
  exact List.mem_append.mpr (Or.inr hv)

/-- C10: a body with a (truthy) `shop` and `items: []` is not a 400 —
the empty cart is validated with total 0 — no cart-wide bound means
`valid: true` with no violations, and a positive `globalMinCart` or
cart-rule minimum puts a `cart_min` violation with `current = 0` in the
response. -/
theorem empty_items_validated (rules : List Rule)
    (settings : Option Settings) (shop : String) (hs : shop ≠ "") :
    (validateCartHandler rules settings (some shop) (some []) =
      .ok (validateCart rules settings [])) ∧
    totalQuantity [] = 0 ∧
    ((∀ r ∈ rules, r.enabled = true → r.ruleType ≠ "cart") →
      (∀ s, settings = some s →
        truthyNum s.globalMinCart = false ∧ truthyNum s.globalMaxCart = false) →
      (validateCart rules settings []).valid = true ∧
      (validateCart rules settings []).violations = []) ∧
    (∀ s g, settings = some s → s.globalMinCart = some g → 0 < g →
      settingsMinViolation 0 g ∈ (validateCart rules settings []).violations) ∧
    (∀ r g, r ∈ rules → r.enabled = true → r.ruleType = "cart" →
      r.minQuantity = some g → 0 < g →
      cartMinViolation r 0 g ∈ (validateCart rules settings []).violations) := by
  refine ⟨?_, rfl, ?_, ?_, ?_⟩
  · simp [validateCartHandler, truthyStr, truthyItems, hs]
  · intro hrules hset
    have hitem : itemViolations (rules.filter fun r => r.enabled) [] = [] := rfl
    have hcart : cartViolations (rules.filter fun r => r.enabled)
        (totalQuantity []) = [] := by
      refine cartViolations_nil_of _ _ fun r hr => ?_
      obtain ⟨h1, h2⟩ := List.mem_filter.mp hr
      exact hrules r h1 h2
    have hsettings : settingsViolations settings (totalQuantity []) = [] :=
      settingsViolations_nil_of _ _ hset
    have hviol : (validateCart rules settings []).violations = [] := by
      rw [violations_eq, hitem, hcart, hsettings]
      rfl
    exact ⟨by rw [valid_eq, hviol]; rfl, hviol⟩
  · intro s g hset hg hpos
    subst hset
    have htot : totalQuantity ([] : List Item) = 0 := rfl
    obtain ⟨_, hmem⟩ :=
      settingsViolations_min_eq s g 0 hg (by omega) (by omega)
    refine mem_validateCart_of_settings rules (some s) [] _ ?_
    rw [htot]
    exact hmem
  · intro r g hr hen hc hg hpos
    have htot : totalQuantity ([] : List Item) = 0 := rfl
    refine mem_validateCart_of_cart rules settings [] r _ hr hen hc ?_
    rw [htot]
    exact cartMin_mem_cartPair r 0 g hg (by omega) (by omega)

/-- Witness for C10: shop `"s"`, empty items, against empty rules / no
settings, settings with `globalMinCart = 5`, and a cart rule with
minimum 2. -/
theorem empty_items_validated_witness :
    (validateCartHandler [] none (some "s") (some []) =
      .ok (validateCart [] none [])) ∧
    (validateCart [] none []).valid = true ∧
    (validateCart [] none []).violations = [] ∧
    settingsMinViolation 0 5 ∈
      (validateCart [] (some ⟨some 5, none, true, true, false⟩) []).violations ∧
    cartMinViolation ⟨"s", "cart", none, some 2, none, true, none⟩ 0 2 ∈
      (validateCart [⟨"s", "cart", none, some 2, none, true, none⟩]
        none []).violations := by
  have h1 := empty_items_validated [] none "s" (by decide)
  have h2 := empty_items_validated []
    (some ⟨some 5, none, true, true, false⟩) "s" (by decide)
  have h3 := empty_items_validated
    [⟨"s", "cart", none, some 2, none, true, none⟩] none "s" (by decide)
  have hvalid := h1.2.2.1 (fun r hr => absurd hr (List.not_mem_nil r))
    (fun s hs => by cases hs)
  refine ⟨h1.1, hvalid.1, hvalid.2, ?_, ?_⟩
  · exact h2.2.2.2.1 ⟨some 5, none, true, true, false⟩ 5 rfl rfl (by omega)
  · exact h3.2.2.2.2 ⟨"s", "cart", none, some 2, none, true, none⟩ 2
      (List.mem_singleton.mpr rfl) rfl rfl rfl (by omega)

/-- A signature failure makes `verifyWebhook` answer `false`. -/
theorem verifyWebhook_false_of_mismatch (hmacF : String → String → String)
    (secret : String) (req : WebhookReq)
    (h : req.hmacHeader ≠ some (hmacF secret (webhookHashInput req))) :
    verifyWebhook hmacF secret req = false := by
  unfold verifyWebhook
  cases hh : req.hmacHeader with
  | none => rfl
  | some v =>
    have hne : v ≠ hmacF secret (webhookHashInput req) := fun he =>
      h (by rw [hh, he])
    simp [hne]

/-- C4 (amended): each webhook handler checks the header against the
HMAC of `JSON.stringify(req.body)`, and on mismatch answers 401 leaving
the database untouched. -/
theorem webhook_mismatch_rejects_401 (hmacF : String → String → String)
    (secret : String) (req : WebhookReq) (db : DBState)
    (h : req.hmacHeader ≠ some (hmacF secret (webhookHashInput req))) :
    custDataRequestHandler hmacF secret req db = (401, db) ∧
    custRedactHandler hmacF secret req db = (401, db) ∧
    shopRedactHandler hmacF secret req db = (401, db) := by
  have hver := verifyWebhook_false_of_mismatch hmacF secret req h
  refine ⟨?_, ?_, ?_⟩ <;>
    simp [custDataRequestHandler, custRedactHandler, shopRedactHandler, hver]

/-- Witness for C4's amended theorem: a wrong header against a concrete
model digest function. -/
theorem webhook_mismatch_rejects_401_witness :
    custDataRequestHandler (fun s b => s ++ b) "sec"
      ⟨some "bad", "null", Json.null⟩ ⟨[], [], []⟩ = (401, ⟨[], [], []⟩) ∧
    custRedactHandler (fun s b => s ++ b) "sec"
      ⟨some "bad", "null", Json.null⟩ ⟨[], [], []⟩ = (401, ⟨[], [], []⟩) ∧
    shopRedactHandler (fun s b => s ++ b) "sec"
      ⟨some "bad", "null", Json.null⟩ ⟨[], [], []⟩ = (401, ⟨[], [], []⟩) :=
  webhook_mismatch_rejects_401 (fun s b => s ++ b) "sec"
    ⟨some "bad", "null", Json.null⟩ ⟨[], [], []⟩ (by decide)

/-- Counterexample to C4 as stated: the handlers hash
`JSON.stringify(req.body)`, not the raw request body.  The raw body
below is valid JSON (first conjunct: it parses to the request's parsed
body) but is not in `JSON.stringify` normal form, so the hash input
differs from it (second conjunct), and a request correctly signed over
the raw body — with a concrete injective stand-in for HMAC-SHA256 — is
rejected with 401 (third conjunct). -/
theorem webhook_hash_not_raw_body :
    jsonParse "\x7b\"shop_domain\": \"x\"\x7d" =
      some (Json.obj [("shop_domain", Json.str "x")]) ∧
    webhookHashInput
      ⟨some ("sec" ++ "\x7b\"shop_domain\": \"x\"\x7d"),
        "\x7b\"shop_domain\": \"x\"\x7d",
        Json.obj [("shop_domain", Json.str "x")]⟩ ≠
      "\x7b\"shop_domain\": \"x\"\x7d" ∧
    custDataRequestHandler (fun s b => s ++ b) "sec"
      ⟨some ("sec" ++ "\x7b\"shop_domain\": \"x\"\x7d"),
        "\x7b\"shop_domain\": \"x\"\x7d",
        Json.obj [("shop_domain", Json.str "x")]⟩ ⟨[], [], []⟩ =
      (401, ⟨[], [], []⟩) := by
  refine ⟨rfl, by decide, rfl⟩

/-- Deleting one shop's rows leaves any other shop's rows — with their
order and multiplicity — untouched. -/
theorem filter_other_shop {α : Type} (xs : List α) (key : α → String)
    (d shop : String) (h : shop ≠ d) :
    (xs.filter fun x => !(key x == d)).filter (fun x => key x == shop) =
      xs.filter fun x => key x == shop := by
  rw [List.filter_filter]
  refine List.filter_congr fun a _ => ?_
  by_cases hk : key a = shop
  · have hd : (key a == d) = false := by
      rw [hk]
      exact beq_eq_false_iff_ne.mpr h
    simp only [hd, Bool.not_false, Bool.true_and, Bool.and_true]
  · have hks : (key a == shop) = false := beq_eq_false_iff_ne.mpr hk
    simp [hks]

/-- C5: a verified shop-redaction webhook carrying `shop_domain = d`
answers 200 and deletes exactly shop `d`'s rules, settings row and shop
record: what remains of each table is its rows whose shop is not `d`,
and for every other shop the table restricted to that shop is
unchanged. -/
theorem shop_redact_cascade_frame (hmacF : String → String → String)
    (secret : String) (req : WebhookReq) (db : DBState) (d : String)
    (hver : verifyWebhook hmacF secret req = true)
    (hdom : getShopDomain req.body = some d) :
    (shopRedactHandler hmacF secret req db).1 = 200 ∧
    (∀ r, r ∈ (shopRedactHandler hmacF secret req db).2.rules ↔
      r ∈ db.rules ∧ r.shopId ≠ d) ∧
    (∀ s, s ∈ (shopRedactHandler hmacF secret req db).2.settingsRecs ↔
      s ∈ db.settingsRecs ∧ s.shopId ≠ d) ∧
    (∀ s, s ∈ (shopRedactHandler hmacF secret req db).2.shops ↔
      s ∈ db.shops ∧ s.id ≠ d) ∧
    (∀ shop, shop ≠ d →
      (shopRedactHandler hmacF secret req db).2.rules.filter
          (fun r => r.shopId == shop) =
        db.rules.filter (fun r => r.shopId == shop) ∧
      (shopRedactHandler hmacF secret req db).2.settingsRecs.filter
          (fun s => s.shopId == shop) =
        db.settingsRecs.filter (fun s => s.shopId == shop) ∧
      (shopRedactHandler hmacF secret req db).2.shops.filter
          (fun s => s.id == shop) =
        db.shops.filter (fun s => s.id == shop)) := by
  have hred : shopRedactHandler hmacF secret req db =
      (200,
        { rules := db.rules.filter fun r => !(r.shopId == d)
          settingsRecs := db.settingsRecs.filter fun s => !(s.shopId == d)
          shops := db.shops.filter fun s => !(s.id == d) }) := by
    unfold shopRedactHandler
    rw [hver, hdom]
    simp [whereShopId]
  rw [hred]
  refine ⟨rfl, ?_, ?_, ?_, ?_⟩
  · intro r
    simp [List.mem_filter]
  · intro s
    simp [List.mem_filter]
  · intro s
    simp [List.mem_filter]
  · intro shop hshop
    exact ⟨filter_other_shop db.rules (fun r => r.shopId) d shop hshop,
      filter_other_shop db.settingsRecs (fun s => s.shopId) d shop hshop,
      filter_other_shop db.shops (fun s => s.id) d shop hshop⟩

/-- Witness for C5: a two-shop database; redacting shop `"a"` removes
its three rows and leaves shop `"b"`'s rows unchanged. -/
theorem shop_redact_cascade_frame_witness :
    (shopRedactHandler (fun s b => s ++ b) "sec"
      ⟨some ("sec" ++ "\x7b\"shop_domain\":\"a\"\x7d"),
        "\x7b\"shop_domain\":\"a\"\x7d",
        Json.obj [("shop_domain", Json.str "a")]⟩
      ⟨[⟨"a", "product", some "p", some 1, none, true, none⟩,
        ⟨"b", "cart", none, none, some 9, true, none⟩],
       [⟨"a", ⟨none, none, true, true, false⟩⟩,
        ⟨"b", ⟨some 2, none, true, true, false⟩⟩],
       [⟨"a", "a"⟩, ⟨"b", "b"⟩]⟩).1 = 200 ∧
    (⟨"b", "cart", none, none, some 9, true, none⟩ ∈
      (shopRedactHandler (fun s b => s ++ b) "sec"
        ⟨some ("sec" ++ "\x7b\"shop_domain\":\"a\"\x7d"),
          "\x7b\"shop_domain\":\"a\"\x7d",
          Json.obj [("shop_domain", Json.str "a")]⟩
        ⟨[⟨"a", "product", some "p", some 1, none, true, none⟩,
          ⟨"b", "cart", none, none, some 9, true, none⟩],
         [⟨"a", ⟨none, none, true, true, false⟩⟩,
          ⟨"b", ⟨some 2, none, true, true, false⟩⟩],
         [⟨"a", "a"⟩, ⟨"b", "b"⟩]⟩).2.rules ↔
      (⟨"b", "cart", none, none, some 9, true, none⟩ : Rule) ∈
        ([⟨"a", "product", some "p", some 1, none, true, none⟩,
          ⟨"b", "cart", none, none, some 9, true, none⟩] : List Rule) ∧
      ("b" : String) ≠ "a") := by
  have h := shop_redact_cascade_frame (fun s b => s ++ b) "sec"
    ⟨some ("sec" ++ "\x7b\"shop_domain\":\"a\"\x7d"),
      "\x7b\"shop_domain\":\"a\"\x7d",
      Json.obj [("shop_domain", Json.str "a")]⟩
    ⟨[⟨"a", "product", some "p", some 1, none, true, none⟩,
      ⟨"b", "cart", none, none, some 9, true, none⟩],
     [⟨"a", ⟨none, none, true, true, false⟩⟩,
      ⟨"b", ⟨some 2, none, true, true, false⟩⟩],
     [⟨"a", "a"⟩, ⟨"b", "b"⟩]⟩ "a" (by decide) rfl
  exact ⟨h.1, h.2.1 ⟨"b", "cart", none, none, some 9, true, none⟩⟩

/-- C6: with no active subscription and the current instant strictly
past creation plus the configured trial days, the billing gate answers
402; with an active subscription, or within the trial window, the
request falls through to `next()`. -/
theorem subscription_gate (hasActive : Bool) (createdAt trialDays now : Int) :
    (hasActive = false → now > createdAt + trialDays * msPerDay →
      requireSubscription hasActive createdAt trialDays now = .paymentRequired) ∧
    (hasActive = true →
      requireSubscription hasActive createdAt trialDays now = .next) ∧
    (now ≤ createdAt + trialDays * msPerDay →
      requireSubscription hasActive createdAt trialDays now = .next) := by
  refine ⟨?_, ?_, ?_⟩
  · intro ha hpast
    subst ha
    simp [requireSubscription, hpast]
  · intro ha
    subst ha
    rfl
  · intro hin
    cases hasActive with
    | true => rfl
    | false => simp [requireSubscription, not_lt.mpr hin]

/-- Witness for C6: a 7-day trial created at instant 0 — one
millisecond past the window without a subscription gives 402, an active
subscription passes, and the last trial instant passes. -/
theorem subscription_gate_witness :
    requireSubscription false 0 7 604800001 = .paymentRequired ∧
    requireSubscription true 0 7 604800001 = .next ∧
    requireSubscription false 0 7 604800000 = .next := by
  refine ⟨(subscription_gate false 0 7 604800001).1 rfl (by decide),
    (subscription_gate true 0 7 604800001).2.1 rfl,
    (subscription_gate false 0 7 604800000).2.2 (by decide)⟩

end OrderLimits
